import Mathlib

/-!
A verification development for the `peewee_momoko` asynchronous database
adapter: a shallow embedding of its execution layer (statement execution,
transaction wrapping, insert primary-key resolution, result caching,
get-or-create, save and cascading delete) together with theorems checking
the module's documented behaviour.

External collaborators (the momoko connection pool, the tornado coroutine
runner and the peewee base classes) are represented by their consumed
contracts; the functions of `peewee_momoko.py` itself are translated
line by line.
-/

namespace PeeweeMomoko

/-- A database value: integers, strings and SQL NULL. -/
inductive Val
  | int (n : Int)
  | str (s : String)
  | null
  deriving DecidableEq, Repr

/-- A parameterized statement: SQL text plus the bound parameter sequence. -/
structure Stmt where
  sql : String
  params : List Val
  deriving DecidableEq, Repr

/-- An event observable on the backend connection: running one statement, or
committing.  The momoko pool's `transaction` issues a commit as part of the
call; a plain `execute` does not. -/
inductive DbEvent
  | run (s : Stmt)
  | commit
  deriving DecidableEq, Repr

/-- A cursor, identified by the statement that produced it (the embedding
keeps cursors abstract: a forward-only handle over that statement's rows). -/
structure Cursor where
  source : Stmt
  deriving DecidableEq, Repr

/-- Contract of the external momoko pool, `conn.transaction(statements)`:
the statements run inside a single transaction whose commit is issued before
the call returns, and the call returns one cursor per statement. -/
def Pool.transaction (stmts : List Stmt) : List DbEvent × List Cursor :=
  (stmts.map DbEvent.run ++ [DbEvent.commit], stmts.map Cursor.mk)

/-- Contract of the external momoko pool, `conn.execute(sql, params)`: the
statement runs directly, with no implicit commit. -/
def Pool.exec (s : Stmt) : List DbEvent × Cursor :=
  ([DbEvent.run s], ⟨s⟩)

/-- Shallow embedding of `PostgresqlAsyncDatabase.execute_sql`.  Inputs are
the ambient autocommit mode and the `(sql, params, require_commit)` triple;
the result is the list of events issued on the connection together with the
cursor the function returns.  In the transaction branch the source iterates
`for cursor in cursors: pass`, leaving the last cursor bound, hence
`getLast?`. -/
def execute_sql (autocommit : Bool) (sql : String) (params : List Val)
    (require_commit : Bool) : List DbEvent × Option Cursor :=
  if require_commit && autocommit then
    let r := Pool.transaction [⟨sql, params⟩]
    (r.1, r.2.getLast?)
  else
    let r := Pool.exec ⟨sql, params⟩
    (r.1, some r.2)

/-- C3: for every `execute_sql(statement, parameters, require_commit)` call:
when `require_commit` is true and the backend is in autocommit mode the
statement runs inside a single-statement transaction committed before the
call returns (the connection sees exactly the statement followed by a
commit); otherwise it runs directly with no implicit commit; in both cases
the returned cursor is the one produced by that statement. -/
theorem execute_sql_commit_modes (ac rc : Bool) (sql : String) (params : List Val) :
    (rc = true → ac = true →
      execute_sql ac sql params rc =
        ([DbEvent.run ⟨sql, params⟩, DbEvent.commit], some ⟨⟨sql, params⟩⟩))
    ∧ (rc = false ∨ ac = false →
      execute_sql ac sql params rc =
        ([DbEvent.run ⟨sql, params⟩], some ⟨⟨sql, params⟩⟩)) := by
  constructor
  · intro hrc hac
    subst hrc; subst hac
    rfl
  · intro h
    rcases h with h | h <;> subst h <;>
      simp [execute_sql, Pool.exec]

/-- Witness for C3: both modes evaluated at a concrete statement. -/
theorem execute_sql_commit_modes_witness :
    execute_sql true "SELECT 1" [] true =
      ([DbEvent.run ⟨"SELECT 1", []⟩, DbEvent.commit], some ⟨⟨"SELECT 1", []⟩⟩)
    ∧ execute_sql false "SELECT 1" [] true =
      ([DbEvent.run ⟨"SELECT 1", []⟩], some ⟨⟨"SELECT 1", []⟩⟩) :=
  ⟨(execute_sql_commit_modes true true "SELECT 1" []).1 rfl rfl,
   (execute_sql_commit_modes false true "SELECT 1" []).2 (Or.inr rfl)⟩

/-- The caching state of an `AsyncSelectQuery`: the peewee dirty flag and the
cached result wrapper (wrappers are identified by a number). -/
structure SelectQueryState where
  _dirty : Bool
  _qr : Option Nat
  deriving DecidableEq, Repr

/-- Shallow embedding of `AsyncSelectQuery.execute`: if the query is dirty or
has no cached wrapper, run the statement, build a fresh wrapper, cache it and
clear the dirty flag; otherwise return the cached wrapper.  The result is
`(returned wrapper, new state, whether the statement was issued)`. -/
def AsyncSelectQuery.execute (q : SelectQueryState) (fresh : Nat) :
    Nat × SelectQueryState × Bool :=
  if q._dirty || q._qr.isNone then
    (fresh, { _dirty := false, _qr := some fresh }, true)
  else
    (q._qr.getD fresh, q, false)

/-- Marking a select query dirty (peewee sets `_dirty` whenever the query's
predicate or projection is modified). -/
def markDirty (q : SelectQueryState) : SelectQueryState :=
  { q with _dirty := true }

/-- Shallow embedding of `AsyncRawQuery.execute`: the statement is run and a
wrapper built only when `_qr is None`; raw queries carry no dirty flag. -/
def AsyncRawQuery.execute (qr : Option Nat) (fresh : Nat) :
    Nat × Option Nat × Bool :=
  match qr with
  | none => (fresh, some fresh, true)
  | some w => (w, some w, false)

/-- C7: for every Select or Raw query, `execute()` runs the statement at most
once while the query is clean: a second `execute()` after any first one
returns the previously built wrapper without issuing the statement, and a
select query re-executes (issues the statement again) after being marked
dirty; a raw query re-executes only while it has no cached wrapper. -/
theorem execute_caches_result_wrapper (q : SelectQueryState)
    (qr : Option Nat) (f1 f2 f3 : Nat) :
    AsyncSelectQuery.execute (AsyncSelectQuery.execute q f1).2.1 f2 =
      ((AsyncSelectQuery.execute q f1).1, (AsyncSelectQuery.execute q f1).2.1, false)
    ∧ AsyncSelectQuery.execute (markDirty (AsyncSelectQuery.execute q f1).2.1) f3 =
      (f3, { _dirty := false, _qr := some f3 }, true)
    ∧ AsyncRawQuery.execute (AsyncRawQuery.execute qr f1).2.1 f2 =
      ((AsyncRawQuery.execute qr f1).1, (AsyncRawQuery.execute qr f1).2.1, false) := by
  obtain ⟨d, oq⟩ := q
  refine ⟨?_, ?_, ?_⟩
  · rcases d <;> rcases oq with _ | w <;>
      simp [AsyncSelectQuery.execute]
  · rcases d <;> rcases oq with _ | w <;>
      simp [AsyncSelectQuery.execute, markDirty]
  · rcases qr with _ | w <;> simp [AsyncRawQuery.execute]

/-- peewee's `paginate(page, paginate_by)`: offset `(page-1)*paginate_by`,
limit `paginate_by`, applied here to the query's matching rows. -/
def paginateRows {Row : Type} (page paginate_by : Nat) (rows : List Row) : List Row :=
  (rows.drop ((page - 1) * paginate_by)).take paginate_by

/-- Outcome of `AsyncSelectQuery.get`: a materialized row, or the not-found
error `DoesNotExist` carrying the statement text and bound parameters. -/
inductive GetOutcome (Row : Type)
  | found (r : Row)
  | doesNotExist (sql : String) (params : List Val)
  deriving DecidableEq, Repr

/-- Shallow embedding of `AsyncSelectQuery.get`: clone the query with
`paginate(1, 1)`, execute it, and pull one row with `next()`; the
`StopIteration` of an empty wrapper is turned into `DoesNotExist` formatted
from `self.sql()` (statement text and parameters). -/
def AsyncSelectQuery.get {Row : Type} (rows : List Row) (sql : String)
    (params : List Val) : GetOutcome Row :=
  match (paginateRows 1 1 rows).head? with
  | some r => .found r
  | none => .doesNotExist sql params

/-- C9: for every select query, `get()` returns exactly the first matching
row when at least one row matches (the paginated clone materializes at most
one row), and it fails with the not-found error if and only if no row
matches, that error carrying the statement text and the bound parameters. -/
theorem get_one_row_or_not_found {Row : Type} (rows : List Row)
    (sql : String) (params : List Val) :
    (∀ r tl, rows = r :: tl → AsyncSelectQuery.get rows sql params = .found r)
    ∧ (AsyncSelectQuery.get rows sql params = .doesNotExist sql params ↔ rows = [])
    ∧ (paginateRows 1 1 rows).length ≤ 1 := by
  refine ⟨?_, ⟨?_, ?_⟩, ?_⟩
  · intro r tl h
    subst h
    rfl
  · intro h
    cases rows with
    | nil => rfl
    | cons r tl => simp [AsyncSelectQuery.get, paginateRows] at h
  · intro h
    subst h
    rfl
  · cases rows with
    | nil => simp [paginateRows]
    | cons r tl => simp [paginateRows]

/-- Witness for C9: a one-row query yields that row; an empty query yields
`DoesNotExist` with the statement and parameters. -/
theorem get_one_row_or_not_found_witness :
    AsyncSelectQuery.get [Val.int 7] "SELECT 1" [] = .found (Val.int 7)
    ∧ (AsyncSelectQuery.get ([] : List Val) "SELECT 1" [] =
        .doesNotExist "SELECT 1" [] ↔ ([] : List Val) = []) :=
  ⟨(get_one_row_or_not_found [Val.int 7] "SELECT 1" []).1 (Val.int 7) [] rfl,
   (get_one_row_or_not_found ([] : List Val) "SELECT 1" []).2.1⟩

/-- A field dictionary: field name to value, keys unique (a Python dict). -/
abbrev FieldDict := List (String × Val)

/-- peewee's `Model._prune_fields`: keep only the fields named in `only`. -/
def prune_fields (fd : FieldDict) (only : List String) : FieldDict :=
  fd.filter (fun p => only.contains p.1)

/-- `dict.pop(k, None)` on a field dictionary: remove the key `k`. -/
def dictPop (fd : FieldDict) (k : String) : FieldDict :=
  fd.filter (fun p => p.1 ≠ k)

/-- The table metadata `save` consults: whether the primary key is composite,
its component field names (composite case) and its field name (scalar case). -/
structure ModelMeta where
  composite_key : Bool
  pk_field_names : List String
  pk_name : String
  deriving DecidableEq, Repr

/-- The names of all primary-key component fields. -/
def ModelMeta.pk_names (meta : ModelMeta) : List String :=
  if meta.composite_key then meta.pk_field_names else [meta.pk_name]

/-- A model instance as `save` sees it: the `_data` field dictionary, the
`_dirty` set of changed-since-load field names, and `_get_pk_value()`. -/
structure ModelInstance where
  _data : FieldDict
  dirty_fields : List String
  pk_value : Option Val
  deriving DecidableEq, Repr

/-- A where clause of the shape this layer produces: equality on the named
primary-key fields against the given values. -/
inductive WhereClause
  | pkEquals (names : List String) (values : List Val)
  deriving DecidableEq, Repr

/-- `Model._pk_expr()`: equality of every primary-key component field against
its current value on the instance. -/
def ModelInstance.pk_expr (inst : ModelInstance) (meta : ModelMeta) : WhereClause :=
  .pkEquals meta.pk_names
    (meta.pk_names.map (fun n => (inst._data.lookup n).getD Val.null))

/-- A stored row of the backing table. -/
structure DbRow where
  fields : FieldDict
  deriving DecidableEq, Repr

/-- Whether a stored row satisfies a primary-key equality clause. -/
def rowMatches (w : WhereClause) (row : DbRow) : Bool :=
  match w with
  | .pkEquals names values =>
      decide (names.map (fun n => (row.fields.lookup n).getD Val.null) = values)

/-- Applying an update's assignment list to one row's fields. -/
def applyAssignments (assigns : FieldDict) (fields : FieldDict) : FieldDict :=
  fields.map (fun p =>
    match assigns.lookup p.1 with
    | some v => (p.1, v)
    | none => p)

/-- Running an update statement against a table: rows satisfying the where
clause receive the assignments; the second component is the backend's
rows-affected count. -/
def runUpdate (assigns : FieldDict) (w : WhereClause) (tbl : List DbRow) :
    List DbRow × Nat :=
  (tbl.map (fun r =>
     if rowMatches w r then { r with fields := applyAssignments assigns r.fields } else r),
   (tbl.filter (rowMatches w)).length)

/-- Shallow embedding of `AsyncUpdateQuery.execute`: run the statement and
return `database.rows_affected(cursor)`. -/
def AsyncUpdateQuery.execute (assigns : FieldDict) (w : WhereClause)
    (tbl : List DbRow) : Nat :=
  (runUpdate assigns w tbl).2

/-- The statement `AsyncModel.save` issues. -/
inductive SaveStmt
  | update (assigns : FieldDict) (w : WhereClause)
  | insert (fields : FieldDict)
  deriving DecidableEq, Repr

/-- The key-stripping loop of `save`'s update branch: pop each component
field of a composite key individually, or pop the single key field. -/
def stripPk (meta : ModelMeta) (fd : FieldDict) : FieldDict :=
  if meta.composite_key then
    meta.pk_field_names.foldl dictPop fd
  else
    dictPop fd meta.pk_name

/-- Shallow embedding of the statement-building part of `AsyncModel.save`:
`field_dict = dict(self._data)`, pruned to `only` when `only` is truthy
(non-empty); if the primary key is non-null and insert is not forced, the
key components are stripped and an update scoped by `_pk_expr()` is issued,
otherwise an insert of the field dictionary. -/
def AsyncModel.savePlan (meta : ModelMeta) (inst : ModelInstance)
    (force_insert : Bool) (only : List String) : SaveStmt :=
  let field_dict := inst._data
  let field_dict := if only.isEmpty then field_dict else prune_fields field_dict only
  if inst.pk_value.isSome && !force_insert then
    .update (stripPk meta field_dict) (inst.pk_expr meta)
  else
    .insert field_dict

/-- Shallow embedding of `AsyncModel.save` run against a table: the issued
statement together with the returned `rows` value (the update branch returns
the rows-affected count of `AsyncUpdateQuery.execute`; the insert branch
returns 1). -/
def AsyncModel.save (meta : ModelMeta) (inst : ModelInstance)
    (force_insert : Bool) (only : List String) (tbl : List DbRow) :
    SaveStmt × Nat :=
  match AsyncModel.savePlan meta inst force_insert only with
  | .update a w => (.update a w, AsyncUpdateQuery.execute a w tbl)
  | .insert f => (.insert f, 1)

theorem mem_dictPop {fd : FieldDict} {k : String} {p : String × Val}
    (hp : p ∈ dictPop fd k) : p ∈ fd ∧ p.1 ≠ k := by
  simpa [dictPop, List.mem_filter] using hp

theorem mem_foldl_dictPop {names : List String} {fd : FieldDict}
    {p : String × Val} (hp : p ∈ names.foldl dictPop fd) :
    p ∈ fd ∧ p.1 ∉ names := by
  induction names generalizing fd with
  | nil => exact ⟨hp, by simp⟩
  | cons m rest ih =>
      obtain ⟨h1, h2⟩ := ih hp
      obtain ⟨h3, h4⟩ := mem_dictPop h1
      exact ⟨h3, by simp [List.mem_cons, h4, h2]⟩

/-- The concrete metadata used in the C2 counterexample and witness: a
non-composite integer primary key named `id`. -/
def meta0 : ModelMeta := ⟨false, [], "id"⟩

/-- The concrete instance used in the C2 counterexample and witness: three
fields, primary key 1, and only field `a` changed since load. -/
def inst0 : ModelInstance :=
  ⟨[("id", Val.int 1), ("a", Val.int 2), ("b", Val.int 3)], ["a"], some (Val.int 1)⟩

/-- Counterexample to C2 as stated: on an instance with a non-null primary
key and `force_insert=false`, the update built by `save` is NOT restricted to
changed fields — here field `b` is unchanged (`dirty_fields = ["a"]`) yet its
assignment is issued, because the source builds the field set from
`dict(self._data)` and never consults the dirty set. -/
theorem savePlan_includes_unchanged_field :
    AsyncModel.savePlan meta0 inst0 false [] =
      .update [("a", Val.int 2), ("b", Val.int 3)]
        (WhereClause.pkEquals ["id"] [Val.int 1])
    ∧ "b" ∈ [("a", Val.int 2), ("b", Val.int 3)].map Prod.fst
    ∧ "b" ∉ inst0.dirty_fields := by
  refine ⟨by decide, by decide, by decide⟩

/-- C2 (amended): for every `save()` on an instance with a non-null primary
key and `force_insert=false`, the issued statement is an update over all
tracked field values (optionally narrowed to a caller-specified subset, but
not restricted to changed fields) whose assignment list contains no
primary-key component field (for a composite key, every part is individually
removed), scoped by primary-key equality, and `save()` returns the number of
rows affected. -/
theorem pk_not_mem_stripPk (meta : ModelMeta) (fd : FieldDict) {n : String}
    (hn : n ∈ meta.pk_names) : n ∉ (stripPk meta fd).map Prod.fst := by
  intro hmem
  obtain ⟨p, hp, hp1⟩ := List.mem_map.mp hmem
  by_cases hck : meta.composite_key = true
  · rw [stripPk, if_pos hck] at hp
    obtain ⟨-, hnotin⟩ := mem_foldl_dictPop hp
    rw [ModelMeta.pk_names, if_pos hck] at hn
    exact hnotin (by rw [hp1]; exact hn)
  · rw [stripPk, if_neg hck] at hp
    obtain ⟨-, hne⟩ := mem_dictPop hp
    rw [ModelMeta.pk_names, if_neg hck] at hn
    simp only [List.mem_singleton] at hn
    exact hne (hp1.trans hn)

theorem save_update_strips_pk_and_counts_rows (meta : ModelMeta)
    (inst : ModelInstance) (only : List String) (tbl : List DbRow)
    (h : inst.pk_value.isSome = true) :
    AsyncModel.savePlan meta inst false only =
      .update
        (stripPk meta (if only.isEmpty then inst._data else prune_fields inst._data only))
        (inst.pk_expr meta)
    ∧ (∀ n ∈ meta.pk_names, ∀ fd : FieldDict, n ∉ (stripPk meta fd).map Prod.fst)
    ∧ (AsyncModel.save meta inst false only tbl).2 =
        (tbl.filter (rowMatches (inst.pk_expr meta))).length := by
  have hplan : AsyncModel.savePlan meta inst false only =
      .update
        (stripPk meta (if only.isEmpty then inst._data else prune_fields inst._data only))
        (inst.pk_expr meta) := by
    simp [AsyncModel.savePlan, h]
  refine ⟨hplan, ?_, ?_⟩
  · intro n hn fd
    exact pk_not_mem_stripPk meta fd hn
  · simp [AsyncModel.save, hplan, AsyncUpdateQuery.execute, runUpdate]

/-- Witness for C2: the amended theorem applied to the concrete instance
`inst0` over a two-row table in which exactly one row has `id = 1`. -/
theorem save_update_strips_pk_and_counts_rows_witness :
    AsyncModel.savePlan meta0 inst0 false [] =
      .update
        (stripPk meta0
          (if List.isEmpty ([] : List String) then inst0._data
           else prune_fields inst0._data []))
        (inst0.pk_expr meta0)
    ∧ (∀ n ∈ meta0.pk_names, ∀ fd : FieldDict, n ∉ (stripPk meta0 fd).map Prod.fst)
    ∧ (AsyncModel.save meta0 inst0 false []
        [⟨[("id", Val.int 1), ("a", Val.int 9), ("b", Val.int 9)]⟩,
         ⟨[("id", Val.int 2), ("a", Val.int 9), ("b", Val.int 9)]⟩]).2 =
        (List.filter (rowMatches (inst0.pk_expr meta0))
          [⟨[("id", Val.int 1), ("a", Val.int 9), ("b", Val.int 9)]⟩,
           ⟨[("id", Val.int 2), ("a", Val.int 9), ("b", Val.int 9)]⟩]).length :=
  save_update_strips_pk_and_counts_rows meta0 inst0 []
    [⟨[("id", Val.int 1), ("a", Val.int 9), ("b", Val.int 9)]⟩,
     ⟨[("id", Val.int 2), ("a", Val.int 9), ("b", Val.int 9)]⟩] (by decide)

/-- A foreign key as seen by `delete_instance`: its nullability and field
name. -/
structure ForeignKeyField where
  null : Bool
  name : String
  deriving DecidableEq, Repr

/-- One dependency yielded by peewee's `Model.dependencies()`: the foreign
key field together with the accumulated query selecting the dependent rows.
The query is represented by the root primary-key value those rows
reference. -/
structure Dependency where
  fk : ForeignKeyField
  query : Val
  deriving DecidableEq, Repr

/-- A statement issued by `delete_instance`: detach dependents (update the
reference to NULL), delete dependents, or delete the root row by primary-key
equality. -/
inductive DeleteAction
  | nullifyFk (fkName : String) (query : Val)
  | deleteDependents (query : Val)
  | deleteRoot (w : WhereClause)
  deriving DecidableEq, Repr

/-- The loop body of the recursive branch of `delete_instance`: a nullable
reference is detached (set to NULL) when hard deletion of nullable
references was not requested; otherwise the matching dependents are deleted
outright. -/
def depAction (delete_nullable : Bool) (d : Dependency) : DeleteAction :=
  if d.fk.null && !delete_nullable then .nullifyFk d.fk.name d.query
  else .deleteDependents d.query

/-- Shallow embedding of `AsyncModel.delete_instance`: the sequence of
statements issued.  With `recursive` the dependencies are walked (in the
source's reversed order), then the root row is deleted by `_pk_expr()`;
without `recursive` only the root delete is issued. -/
def AsyncModel.delete_instance (recursive delete_nullable : Bool)
    (deps : List Dependency) (pk_expr : WhereClause) : List DeleteAction :=
  (if recursive then deps.reverse.map (depAction delete_nullable) else [])
    ++ [.deleteRoot pk_expr]

/-- A row of a dependent table: a row identity and the value of its
referencing column (`none` is SQL NULL). -/
structure DepRow where
  rid : Nat
  ref : Option Val
  deriving DecidableEq, Repr

/-- The store `delete_instance` acts on: the root table's rows and the
dependent rows. -/
structure CascadeState where
  roots : List DbRow
  depRows : List DepRow
  deriving DecidableEq, Repr

/-- Executing one `delete_instance` statement against the store. -/
def applyAction (s : CascadeState) : DeleteAction → CascadeState
  | .nullifyFk _ q =>
      { s with depRows := s.depRows.map (fun r =>
          if r.ref = some q then { r with ref := none } else r) }
  | .deleteDependents q =>
      { s with depRows := s.depRows.filter (fun r => r.ref ≠ some q) }
  | .deleteRoot w =>
      { s with roots := s.roots.filter (fun r => !rowMatches w r) }

/-- Executing a sequence of `delete_instance` statements in order. -/
def applyActions (s : CascadeState) (acts : List DeleteAction) : CascadeState :=
  acts.foldl applyAction s

/-- C10: for every `delete_instance` call with `recursive=false`, exactly one
delete statement is issued, scoped by the instance's primary-key equality;
no dependent relation is read, updated or deleted (the dependent rows are
untouched), and only root rows matching the primary key are removed — all
other rows are unchanged. -/
theorem delete_instance_nonrecursive_frame (dn : Bool) (deps : List Dependency)
    (pk : WhereClause) (s : CascadeState) :
    AsyncModel.delete_instance false dn deps pk = [.deleteRoot pk]
    ∧ (applyActions s (AsyncModel.delete_instance false dn deps pk)).depRows =
        s.depRows
    ∧ (applyActions s (AsyncModel.delete_instance false dn deps pk)).roots =
        s.roots.filter (fun r => !rowMatches pk r) :=
  ⟨rfl, rfl, rfl⟩

/-- C6: for every `delete_instance` call with `recursive=true`: the issued
trace is the dependent-relation statements followed by the root delete (the
root delete is last, so every dependent relation is handled before the root
row is touched); a dependency is detached exactly when its referencing
column is nullable and `delete_nullable=false`, and deleted outright
otherwise; an empty dependency set degenerates to deleting only the root
row; and on a store with one dependent relation no dependent row still
references the root afterwards, while the root rows matching the primary key
are gone. -/
theorem delete_instance_recursive_cascade (dn : Bool) (deps : List Dependency)
    (pk : WhereClause) (s : CascadeState) (d0 : Dependency) :
    AsyncModel.delete_instance true dn deps pk =
      deps.reverse.map (depAction dn) ++ [.deleteRoot pk]
    ∧ (AsyncModel.delete_instance true dn deps pk).getLast? =
        some (.deleteRoot pk)
    ∧ (depAction dn d0 = .nullifyFk d0.fk.name d0.query ↔
        (d0.fk.null = true ∧ dn = false))
    ∧ (depAction dn d0 = .deleteDependents d0.query ↔
        (d0.fk.null = false ∨ dn = true))
    ∧ AsyncModel.delete_instance true dn [] pk = [.deleteRoot pk]
    ∧ (∀ r ∈ (applyActions s (AsyncModel.delete_instance true dn [d0] pk)).depRows,
        r.ref ≠ some d0.query)
    ∧ (applyActions s (AsyncModel.delete_instance true dn [d0] pk)).roots =
        s.roots.filter (fun r => !rowMatches pk r) := by
  refine ⟨rfl, ?_, ?_, ?_, rfl, ?_, ?_⟩
  · simp [AsyncModel.delete_instance]
  · rcases hnull : d0.fk.null <;> rcases hdn : dn <;>
      simp [depAction, hnull, hdn]
  · rcases hnull : d0.fk.null <;> rcases hdn : dn <;>
      simp [depAction, hnull, hdn]
  · intro r hr
    by_cases hb : (d0.fk.null && !dn) = true
    · simp only [AsyncModel.delete_instance, List.reverse_singleton,
        List.map_cons, List.map_nil, depAction, hb, if_pos, List.cons_append,
        List.nil_append, applyActions, List.foldl_cons, List.foldl_nil,
        applyAction] at hr
      obtain ⟨r', hr', hmap⟩ := List.mem_map.mp hr
      by_cases hrq : r'.ref = some d0.query
      · rw [if_pos hrq] at hmap
        rw [← hmap]
        simp
      · rw [if_neg hrq] at hmap
        rw [← hmap]
        exact hrq
    · simp only [AsyncModel.delete_instance, List.reverse_singleton,
        List.map_cons, List.map_nil, depAction, hb, if_neg, List.cons_append,
        List.nil_append, applyActions, List.foldl_cons, List.foldl_nil,
        applyAction] at hr
      have := List.mem_filter.mp hr
      simpa using this.2
  · by_cases hb : (d0.fk.null && !dn) = true <;>
      simp [AsyncModel.delete_instance, depAction, hb, applyActions,
        applyAction]

/-- Witness for C6: a nullable dependency (`delete_nullable=false`) over a
store with one dependent row referencing root 1 and one already NULL: after
the cascade the trace ends with the root delete, the referencing row is
detached, and the root row is gone. -/
theorem delete_instance_recursive_cascade_witness :
    AsyncModel.delete_instance true false [⟨⟨true, "owner"⟩, Val.int 1⟩]
        (WhereClause.pkEquals ["id"] [Val.int 1]) =
      [⟨⟨true, "owner"⟩, Val.int 1⟩].reverse.map (depAction false) ++
        [.deleteRoot (WhereClause.pkEquals ["id"] [Val.int 1])]
    ∧ (⟨10, none⟩ : DepRow).ref ≠ some (Val.int 1)
    ∧ (applyActions
        ⟨[⟨[("id", Val.int 1)]⟩], [⟨10, some (Val.int 1)⟩, ⟨11, none⟩]⟩
        (AsyncModel.delete_instance true false [⟨⟨true, "owner"⟩, Val.int 1⟩]
          (WhereClause.pkEquals ["id"] [Val.int 1]))).roots =
      List.filter
        (fun r => !rowMatches (WhereClause.pkEquals ["id"] [Val.int 1]) r)
        [⟨[("id", Val.int 1)]⟩] := by
  have h := delete_instance_recursive_cascade false
    [⟨⟨true, "owner"⟩, Val.int 1⟩] (WhereClause.pkEquals ["id"] [Val.int 1])
    ⟨[⟨[("id", Val.int 1)]⟩], [⟨10, some (Val.int 1)⟩, ⟨11, none⟩]⟩
    ⟨⟨true, "owner"⟩, Val.int 1⟩
  exact ⟨h.1, h.2.2.2.2.2.1 ⟨10, none⟩ (by decide), h.2.2.2.2.2.2⟩

/-- Shallow embedding of `PostgresqlAsyncDatabase.last_insert_id` (a
`gen.coroutine`): with no primary-key sequence it returns early (the future
resolves to None) issuing nothing; otherwise it issues the schema-qualified
`SELECT CURRVAL('schema."sequence"')` statement and resolves to the query's
scalar result.  The value is what the coroutine's future eventually holds,
paired with the statements issued inside it. -/
def last_insert_id (sequence : Option String) (schema : Option String)
    (currval : String → Val) : Option Val × List Stmt :=
  match sequence with
  | none => (none, [])
  | some seq =>
      let schemaStr := match schema with
        | some s => s ++ "."
        | none => ""
      let q := "SELECT CURRVAL(" ++ "\x27" ++ schemaStr ++ "\"" ++ seq ++ "\""
        ++ "\x27" ++ ")"
      (some (currval q), [⟨q, []⟩])

/-- What a single-row `AsyncInsertQuery.execute` hands back to its caller.
`futureOf` is a tornado Future object: the source's sequence branch does
`raise gen.Return(self.database.last_insert_id(...))` without yielding, and
`last_insert_id` is a coroutine, so the caller receives the future itself,
not the value it resolves to. -/
inductive InsertResult
  | value (v : Val)
  | valueList (vs : List Val)
  | futureOf (resolvesTo : Option Val) (issued : List Stmt)
  deriving DecidableEq, Repr

/-- Shallow embedding of the single-row path of `AsyncInsertQuery.execute`.
With returning support, the returned row is read and converted by each key
field's `python_value` (`pk_converters`), giving the list for a composite
key and `clean_data[0]` otherwise (a key row is never empty; `headD`
supplies an unused default).  Without returning support, the branch returns
the un-awaited `last_insert_id` future. -/
def AsyncInsertQuery.execute (insert_returning composite_key : Bool)
    (pk_converters : List (Val → Val)) (pk_row : List Val)
    (sequence : Option String) (schema : Option String)
    (currval : String → Val) : InsertResult :=
  if insert_returning then
    let clean_data := (pk_converters.zip pk_row).map (fun fc => fc.1 fc.2)
    if composite_key then .valueList clean_data
    else .value (clean_data.headD Val.null)
  else
    let fut := last_insert_id sequence schema currval
    .futureOf fut.1 fut.2

/-- C4, evaluated at its failing input: the returning-clause strategy does
convert and return the key (scalar for a single-column key, ordered list for
a composite key), but the sequence strategy is broken — the schema-qualified
CURRVAL query is built inside the `last_insert_id` coroutine, yet `execute`
returns that coroutine's un-awaited future (`gen.Return` without a `yield`),
not the scalar the claim promises; likewise without a sequence the caller
receives a future resolving to None rather than nothing. -/
theorem insert_pk_resolution_returns_future :
    AsyncInsertQuery.execute true false [fun v => v] [Val.int 7] none none
        (fun _ => Val.null) = .value (Val.int 7)
    ∧ AsyncInsertQuery.execute true true [fun v => v, fun v => v]
        [Val.int 7, Val.str "k"] none none (fun _ => Val.null) =
      .valueList [Val.int 7, Val.str "k"]
    ∧ AsyncInsertQuery.execute false false [fun v => v] []
        (some "users_id_seq") none (fun _ => Val.int 42) =
      .futureOf (some (Val.int 42))
        [⟨"SELECT CURRVAL(" ++ "\x27" ++ "\"users_id_seq\"" ++ "\x27" ++ ")", []⟩]
    ∧ AsyncInsertQuery.execute false false [fun v => v] []
        (some "users_id_seq") none (fun _ => Val.int 42) ≠ .value (Val.int 42)
    ∧ AsyncInsertQuery.execute false false [fun v => v] [] none none
        (fun _ => Val.int 42) = .futureOf none [] := by
  refine ⟨rfl, rfl, rfl, ?_, rfl⟩
  intro h
  simp [AsyncInsertQuery.execute, last_insert_id] at h

/-- The Python exceptions this layer distinguishes. -/
inductive PyExc
  | integrityError
  | badYieldError
  | typeError
  deriving DecidableEq, Repr

/-- A value a generator yields to the tornado coroutine runner: a single
future, or — as on the source's `cursor = yield cls.create(**params), True`
line, where the yield expression takes the whole expression list — a pair of
a future and a plain bool. -/
inductive Yielded (Row : Type)
  | future (outcome : Except PyExc Row)
  | pairWithBool (outcome : Except PyExc Row) (b : Bool)

/-- Contract of the external tornado coroutine runner for a yielded value
(`Runner.handle_yield`): yielding a future awaits it, delivering its result
or raising its exception into the generator; yielding a tuple is rejected
with `BadYieldError` at the yield point, before any member future's result
or exception is observed (only futures, and lists or dicts of futures, are
convertible). -/
def awaitYielded {Row : Type} : Yielded Row → Except PyExc Row
  | .future out => out
  | .pairWithBool _ _ => .error .badYieldError

/-- Substring containment on character lists: some suffix starts with the
pattern. -/
def listContainsSub (pat : List Char) : List Char → Bool
  | [] => pat.isEmpty
  | c :: rest => pat.isPrefixOf (c :: rest) || listContainsSub pat rest

/-- Python `'__' in k`: whether a criteria key carries a lookup operator
suffix such as `age__gt`. -/
def hasLookup (k : String) : Bool := listContainsSub "__".data k.data

/-- Python `dict.update`: entries of `b` override same-keyed entries of `a`
(association order abstracted to surviving `a` entries followed by `b`). -/
def dictUpdate (a b : List (String × Val)) : List (String × Val) :=
  a.filter (fun p => !((b.map Prod.fst).contains p.1)) ++ b

/-- The environment of one `get_or_create` call: what the initial select
finds, the outcome the `cls.create(**params)` coroutine's future will hold,
and what the re-run select would find. -/
structure GocScenario (Row : Type) where
  firstSelect : Option Row
  createOutcome : Except PyExc Row
  secondSelect : Option Row

/-- The observables of one `get_or_create` call: the returned pair or raised
exception, the parameters handed to `create` (None when no creation was
attempted), and how many times the select query was executed. -/
structure GocResult (Row : Type) where
  outcome : Except PyExc (Row × Bool)
  createParams : Option (List (String × Val))
  selectsRun : Nat

/-- Shallow embedding of `AsyncModel.get_or_create`.  If the initial select
finds a row, return `(row, False)`.  Otherwise build `params` from the
criteria without a lookup operator, updated with the defaults, and — inside
the atomic scope — run `cursor = yield cls.create(**params), True`: the
yielded value is the pair `(create future, True)`, which `awaitYielded`
rejects.  An `IntegrityError` raised at the yield would be caught and the
select re-run once (`except cls.DoesNotExist: raise exc`); any other
exception propagates (the atomic scope re-raises on exit). -/
def AsyncModel.get_or_create {Row : Type} (kwargs defaults : List (String × Val))
    (sc : GocScenario Row) : GocResult Row :=
  match sc.firstSelect with
  | some row => ⟨.ok (row, false), none, 1⟩
  | none =>
      let params := dictUpdate (kwargs.filter (fun p => !hasLookup p.1)) defaults
      match awaitYielded (Yielded.pairWithBool sc.createOutcome true) with
      | .ok cursor => ⟨.ok (cursor, true), some params, 1⟩
      | .error e =>
          if e = .integrityError then
            match sc.secondSelect with
            | some row => ⟨.ok (row, false), some params, 2⟩
            | none => ⟨.error e, some params, 2⟩
          else ⟨.error e, some params, 1⟩

/-- C1, evaluated at its failing input: initial select empty, concurrent
creator wins the race (the create future holds `IntegrityError`), and the
re-run select would find row 7.  The claim promises `(row 7, False)` after
exactly one re-run; instead the runner rejects the yielded pair
`(create future, True)` with `BadYieldError` before the `IntegrityError` is
ever observed, so the `except peewee.IntegrityError` path is dead, the
select runs only once, and `BadYieldError` propagates. -/
theorem get_or_create_retry_never_runs :
    (AsyncModel.get_or_create [("name", Val.str "x")] []
        (⟨none, .error .integrityError, some 7⟩ : GocScenario Nat)).outcome =
      .error .badYieldError
    ∧ (AsyncModel.get_or_create [("name", Val.str "x")] []
        (⟨none, .error .integrityError, some 7⟩ : GocScenario Nat)).selectsRun = 1
    ∧ (AsyncModel.get_or_create [("name", Val.str "x")] []
        (⟨none, .error .integrityError, some 7⟩ : GocScenario Nat)).createParams =
      some [("name", Val.str "x")]
    ∧ (AsyncModel.get_or_create [("name", Val.str "x")] []
        (⟨none, .error .integrityError, some 7⟩ : GocScenario Nat)).outcome ≠
      .ok (7, false) := by
  refine ⟨rfl, rfl, by decide, ?_⟩
  intro h
  exact Except.noConfusion h

/-- C5, evaluated at its failing input: initial select empty and creation
would succeed with row 7.  The creation parameters are indeed the plain
equality criteria (the `age__gt` lookup key is excluded) merged with the
defaults, but the call never returns `(row, created=True)`: the yielded pair
`(create future, True)` is rejected with `BadYieldError`. -/
theorem get_or_create_creation_never_returns_created :
    (AsyncModel.get_or_create [("name", Val.str "x"), ("age__gt", Val.int 3)]
        [("active", Val.int 1)] (⟨none, .ok 7, none⟩ : GocScenario Nat)).outcome =
      .error .badYieldError
    ∧ (AsyncModel.get_or_create [("name", Val.str "x"), ("age__gt", Val.int 3)]
        [("active", Val.int 1)] (⟨none, .ok 7, none⟩ : GocScenario Nat)).createParams =
      some [("name", Val.str "x"), ("active", Val.int 1)]
    ∧ (AsyncModel.get_or_create [("name", Val.str "x"), ("age__gt", Val.int 3)]
        [("active", Val.int 1)] (⟨none, .ok 7, none⟩ : GocScenario Nat)).outcome ≠
      .ok (7, true) := by
  refine ⟨rfl, by decide, ?_⟩
  intro h
  exact Except.noConfusion h

/-- Outcome of a `scalar()` call: a value, Python None, or an exception. -/
inductive ScalarOutcome
  | val (v : Val)
  | noneVal
  | raised (e : PyExc)
  deriving DecidableEq, Repr

/-- Shallow embedding of `AsyncSelectQuery.scalar` over the query's result
rows.  Without conversion, `row = cursor.fetchone()`; `if row and not
as_tuple: raise gen.Return(row[0])`, and in the else branch the source has
`gen.Return(row)` without `raise`, so the coroutine falls off the end and
resolves to None.  With conversion, `row = self.tuples().first()` is not
yielded and `first` is a coroutine, so `row` is a Future object: truthy, and
`row[0]` raises TypeError (a Future is not subscriptable). -/
def AsyncSelectQuery.scalar (rows : List (List Val)) (as_tuple convert : Bool) :
    ScalarOutcome :=
  if convert then
    if !as_tuple then .raised .typeError else .noneVal
  else
    match rows.head? with
    | some (v :: _) => if !as_tuple then .val v else .noneVal
    | some [] => .noneVal
    | none => .noneVal

/-- C8, evaluated at its failing input: on a single-column aggregate query
whose result is the one row `(5,)`, `scalar()` without conversion returns 5
read from the cursor, but `scalar(convert=True)` raises TypeError — the
un-awaited `first()` future is bound to `row` and `row[0]` is evaluated on
it — so the two calls do not yield the same logical value. -/
theorem scalar_convert_path_raises :
    AsyncSelectQuery.scalar [[Val.int 5]] false false = .val (Val.int 5)
    ∧ AsyncSelectQuery.scalar [[Val.int 5]] false true = .raised .typeError
    ∧ AsyncSelectQuery.scalar [[Val.int 5]] false true ≠
        AsyncSelectQuery.scalar [[Val.int 5]] false false := by
  refine ⟨rfl, rfl, by decide⟩

end PeeweeMomoko
